import Mathlib

/-!
Shallow embedding of the interactive column-header subsystem of the
`iced_table` crate (src/lib.rs and src/divider.rs), together with proofs of
the specified properties.  `f32` values are modelled as exact rationals (`ℚ`);
all arithmetic in the embedded code is plain `+`, `-`, `*`, `min`, `max` and
comparisons, so this is faithful up to floating-point rounding.
-/

namespace IcedTable

/-- `iced::Point`: a 2-d position, with `f32` coordinates modelled as `ℚ`. -/
structure Point where
  x : ℚ
  y : ℚ
  deriving DecidableEq, Repr

/-- `iced::Rectangle` with `f32` fields modelled as `ℚ`. -/
structure Rect where
  x : ℚ
  y : ℚ
  width : ℚ
  height : ℚ
  deriving DecidableEq, Repr

/-- `iced::Rectangle::contains`: half-open containment test, as in iced
(`x <= p.x && p.x < x + width && y <= p.y && p.y < y + height`). -/
def Rect.containsPt (r : Rect) (p : Point) : Bool :=
  decide (r.x ≤ p.x) && decide (p.x < r.x + r.width) &&
  decide (r.y ≤ p.y) && decide (p.y < r.y + r.height)

/-- One entry of `Divider::other_columns`, the tuple
`(String, String, bool)` = `(id, title, visible)` in src/divider.rs. -/
structure ColEntry where
  id : String
  title : String
  visible : Bool
  deriving DecidableEq, Repr

/-- `divider::ColumnVisibilityMessage` (src/divider.rs lines 21-27). -/
inductive ColumnVisibilityMessage where
  | ToggleColumn (id : String)
  | HideContextMenu
  deriving DecidableEq, Repr

/-- The data of `Divider` (src/divider.rs lines 29-46) that its pure logic
reads: the column id and title, the sibling-column list, and whether the
`on_column_visibility` callback is present (`Option::is_some`). -/
structure Divider where
  column_id : String
  column_title : String
  other_columns : List ColEntry
  has_on_column_visibility : Bool
  deriving DecidableEq, Repr

/-- `Divider::count_visible_columns` (src/divider.rs lines 113-116):
`1 + self.other_columns.iter().filter(|(_, _, visible)| *visible).count()`. -/
def count_visible_columns (d : Divider) : ℕ :=
  1 + (d.other_columns.filter (fun e => e.visible)).length

/-- `Divider::can_hide_column` (src/divider.rs lines 118-134). -/
def can_hide_column (d : Divider) (column_id : String) : Bool :=
  let visible_count := count_visible_columns d
  if visible_count ≤ 1 then
    false
  else if column_id = d.column_id then
    d.other_columns.any (fun e => e.visible)
  else
    true

/-- The local `separator_offset` of `handle_context_menu_click`
(src/divider.rs line 413): `if self.other_columns.is_empty() { 0.0 } else
{ 6.0 }`. -/
def separator_offset (d : Divider) : ℚ :=
  if d.other_columns.isEmpty then 0 else 6

/-- `Divider::handle_context_menu_click` (src/divider.rs lines 397-445).
Returns the id published in a `ToggleColumn` message, or `none` when the
click is a no-op (the Rust function returns `bool` = "menu should close";
it returns `true` exactly when it publishes, so `Option.isSome` recovers it). -/
def handle_context_menu_click (d : Divider) (cursor_position : Point)
    (menu_bounds : Rect) (scroll_offset : ℚ) : Option String :=
  if cursor_position.x < menu_bounds.x
      ∨ cursor_position.x ≥ menu_bounds.x + menu_bounds.width
      ∨ cursor_position.y < menu_bounds.y
      ∨ cursor_position.y ≥ menu_bounds.y + menu_bounds.height then
    none
  else
    let relative_y := cursor_position.y - menu_bounds.y - 8 + scroll_offset
    let item_height : ℚ := 30
    if relative_y < item_height then
      if can_hide_column d d.column_id && d.has_on_column_visibility then
        some d.column_id
      else
        none
    else if d.other_columns.isEmpty = false
        ∧ relative_y > item_height + separator_offset d then
      let other_column_y := relative_y - item_height - separator_offset d
      let other_index := (Int.floor (other_column_y / item_height)).toNat
      match d.other_columns.get? other_index with
      | some e =>
          if (if e.visible then can_hide_column d e.id else true)
              && d.has_on_column_visibility then
            some e.id
          else
            none
      | none => none
    else
      none

/-- `relative_y` of `handle_context_menu_click`, exposed for statements. -/
def click_relative_y (cursor_position : Point) (menu_bounds : Rect)
    (scroll_offset : ℚ) : ℚ :=
  cursor_position.y - menu_bounds.y - 8 + scroll_offset

/-! ### Context-menu geometry (`Divider::context_menu_bounds`, src/divider.rs
lines 136-172).  The local values of that function are exposed as named
definitions so that theorems can speak about them; `context_menu_bounds`
below combines them exactly as the source does. -/

/-- `item_count` of `context_menu_bounds`: current column, plus a separator
slot when other columns exist, plus one slot per other column. -/
def menu_item_count (d : Divider) : ℕ :=
  1 + (if d.other_columns.isEmpty then 0 else 1) + d.other_columns.length

/-- `content_height` of `context_menu_bounds`. -/
def menu_content_height (d : Divider) : ℚ :=
  (menu_item_count d : ℚ) * 30 + (if d.other_columns.isEmpty then 0 else 6)

/-- `desired_height` of `context_menu_bounds`: content plus `padding * 2.0`
with `padding = 10.0`. -/
def menu_desired_height (d : Divider) : ℚ :=
  menu_content_height d + 10 * 2

/-- `max_height` of `context_menu_bounds`: `viewport_height * 0.8`. -/
def menu_max_height (viewport_height : ℚ) : ℚ :=
  viewport_height * (4 / 5)

/-- `actual_height` of `context_menu_bounds`. -/
def menu_actual_height (d : Divider) (viewport_height : ℚ) : ℚ :=
  min (menu_desired_height d) (menu_max_height viewport_height)

/-- `needs_scroll` of `context_menu_bounds`:
`desired_height > max_height`. -/
def menu_needs_scroll (d : Divider) (viewport_height : ℚ) : Bool :=
  decide (menu_desired_height d > menu_max_height viewport_height)

/-- `content_width` of `context_menu_bounds`: text widths are estimated as
`title.len() as f32 * 8.0`, folded with `f32::max` from `0.0`, and floored at
`min_width = 180.0`. -/
def menu_content_width (d : Divider) : ℚ :=
  let current_title_width : ℚ := (d.column_title.length : ℚ) * 8
  let max_other_width : ℚ :=
    (d.other_columns.map (fun e => (e.title.length : ℚ) * 8)).foldl max 0
  max (max current_title_width max_other_width) 180

/-- `Divider::context_menu_bounds` (src/divider.rs lines 136-172): the menu
rectangle anchored at `position` and the `needs_scroll` flag. -/
def context_menu_bounds (d : Divider) (position : Point)
    (viewport_height : ℚ) : Rect × Bool :=
  let needs_scroll := menu_needs_scroll d viewport_height
  let menu_width := menu_content_width d + 10 * 2 +
    (if needs_scroll then 20 else 0)
  (⟨position.x, position.y, menu_width, menu_actual_height d viewport_height⟩,
    needs_scroll)

/-! ### Divider interaction state and the context-menu overlay. -/

/-- `divider::State` (src/divider.rs lines 12-18): the per-column widget-tree
state slot.  Note its exact field list; in particular it holds no scroll
offset for the context menu. -/
structure State where
  drag_origin : Option Point
  is_divider_hovered : Bool
  show_context_menu : Bool
  context_menu_position : Point
  deriving DecidableEq, Repr

/-- The mutable data of `ContextMenuOverlay` (src/divider.rs lines 743-753)
besides the borrowed divider and tree: its anchor position, scroll offset and
scroll flag. -/
structure OverlayData where
  position : Point
  scroll_offset : ℚ
  needs_scroll : Bool
  deriving DecidableEq, Repr

/-- `Divider::overlay` (src/divider.rs lines 681-712), restricted to the
overlay it produces: when `show_context_menu` is set, a fresh
`ContextMenuOverlay` is built with `position = state.context_menu_position +
translation`, `scroll_offset: 0.0` and `needs_scroll: false`; otherwise no
context-menu overlay exists. -/
def divider_overlay (state : State) (translation : Point) :
    Option OverlayData :=
  if state.show_context_menu then
    some { position := ⟨state.context_menu_position.x + translation.x,
                        state.context_menu_position.y + translation.y⟩,
           scroll_offset := 0,
           needs_scroll := false }
  else
    none

/-- The pointer events distinguished by `ContextMenuOverlay::update`
(src/divider.rs lines 783-850). -/
inductive UiEvent where
  | leftPressed
  | rightPressed
  | cursorMoved
  | wheelLines (y : ℚ)
  | wheelPixels (y : ℚ)
  | other
  deriving DecidableEq, Repr

/-- Result of one `ContextMenuOverlay::update` call: the divider state's
`show_context_menu` flag after the call, the overlay's `scroll_offset` after
the call, the list of messages published to the shell (identified by the id
inside `ToggleColumn`), and whether the event was captured. -/
structure OverlayUpdateResult where
  show_context_menu : Bool
  scroll_offset : ℚ
  published : List String
  captured : Bool
  deriving DecidableEq, Repr

/-- `ContextMenuOverlay::update` (src/divider.rs lines 783-850) as a pure
step function.  `cursor` is `Cursor::Available pos` (`some pos`) or
`Cursor::Unavailable` (`none`); `menu_bounds` is `layout.bounds()`. -/
def overlay_update (d : Divider) (menu_bounds : Rect)
    (show_context_menu : Bool) (scroll_offset : ℚ) (needs_scroll : Bool)
    (cursor : Option Point) (ev : UiEvent) : OverlayUpdateResult :=
  match ev with
  | .leftPressed =>
      match cursor with
      | some cursor_pos =>
          if menu_bounds.containsPt cursor_pos then
            match handle_context_menu_click d cursor_pos menu_bounds
                scroll_offset with
            | some id =>
                { show_context_menu := false, scroll_offset := scroll_offset,
                  published := [id], captured := true }
            | none =>
                { show_context_menu := show_context_menu,
                  scroll_offset := scroll_offset,
                  published := [], captured := true }
          else
            { show_context_menu := false, scroll_offset := scroll_offset,
              published := [], captured := true }
      | none =>
          { show_context_menu := show_context_menu,
            scroll_offset := scroll_offset, published := [],
            captured := false }
  | .rightPressed =>
      { show_context_menu := false, scroll_offset := scroll_offset,
        published := [], captured := true }
  | .cursorMoved =>
      { show_context_menu := show_context_menu,
        scroll_offset := scroll_offset, published := [], captured := false }
  | .wheelLines y =>
      if needs_scroll &&
          (match cursor with
           | some p => menu_bounds.containsPt p
           | none => false) then
        { show_context_menu := show_context_menu,
          scroll_offset := max (scroll_offset - y * 30) 0,
          published := [], captured := true }
      else
        { show_context_menu := show_context_menu,
          scroll_offset := scroll_offset, published := [], captured := false }
  | .wheelPixels y =>
      if needs_scroll &&
          (match cursor with
           | some p => menu_bounds.containsPt p
           | none => false) then
        { show_context_menu := show_context_menu,
          scroll_offset := max (scroll_offset - y) 0,
          published := [], captured := true }
      else
        { show_context_menu := show_context_menu,
          scroll_offset := scroll_offset, published := [], captured := false }
  | .other =>
      { show_context_menu := show_context_menu,
        scroll_offset := scroll_offset, published := [], captured := false }

/-! ### Resize pipeline (src/lib.rs `with_divider` and src/divider.rs
`Divider::update`). -/

/-- The raw drag offset published by `Divider::update` on
`CursorMoved` while a drag is active (src/divider.rs line 568):
`(position - origin).x`. -/
def divider_drag_offset (origin position : Point) : ℚ :=
  position.x - origin.x

/-- The `on_drag` closure built in `with_divider` (src/lib.rs lines 495-498):
given the column's committed width `old_width` and the raw divider `offset`,
the message carries `(index, new_width - old_width)` with
`new_width = (old_width + offset).max(min_column_width)`. -/
def with_divider_on_drag (old_width min_column_width : ℚ) (index : ℕ)
    (offset : ℚ) : ℕ × ℚ :=
  let new_width := max (old_width + offset) min_column_width
  (index, new_width - old_width)

/-- The messages published by `Divider::update` for one `CursorMoved` event
(src/divider.rs lines 565-572) routed through the `with_divider` closure:
exactly one resize-in-progress message when a drag is active and the cursor
has a position, none otherwise. -/
def divider_move_messages (old_width min_column_width : ℚ) (index : ℕ)
    (drag_origin : Option Point) (cursor_position : Option Point) :
    List (ℕ × ℚ) :=
  match cursor_position, drag_origin with
  | some position, some origin =>
      [with_divider_on_drag old_width min_column_width index
        (divider_drag_offset origin position)]
  | _, _ => []

/-! ### Table composition (src/lib.rs). -/

/-- The per-column data `with_divider`, the cell builders and
`dummy_container` read from a `Column` implementor: `width()`,
`resize_offset()` and `is_visible()` (plus `id()`/`title()` used elsewhere). -/
structure TblColumn where
  id : String
  title : String
  width : ℚ
  resize_offset : Option ℚ
  visible : Bool
  deriving DecidableEq, Repr

/-- The effective layout width of one column, as computed in
`with_divider` (src/lib.rs lines 484-485), `body_container` (lines 411-420)
and `dummy_container` (lines 539-541):
`(column.width() + column.resize_offset().unwrap_or_default()).max(min_column_width)`. -/
def effective_width (min_column_width : ℚ) (c : TblColumn) : ℚ :=
  max (c.width + c.resize_offset.getD 0) min_column_width

/-- `total_width` of `dummy_container` (src/lib.rs lines 537-542): the sum of
effective widths over **all** columns of the slice (note: not filtered by
visibility). -/
def dummy_total_width (columns : List TblColumn) (min_column_width : ℚ) : ℚ :=
  (columns.map (effective_width min_column_width)).sum

/-- `dummy_container` (src/lib.rs lines 526-547), reduced to the width of the
filler element it yields: `remaining = min_width - total_width`, and the
filler exists iff `remaining > 0.0`. -/
def dummy_container (columns : List TblColumn) (min_width min_column_width : ℚ) :
    Option ℚ :=
  let remaining := min_width - dummy_total_width columns min_column_width
  if remaining > 0 then some remaining else none

/-- The total width of a composed header/body/footer row: the visible
columns' cells (each of effective width, src/lib.rs lines 247-262 and
416-420) followed by the optional filler cell. -/
def composed_row_width (columns : List TblColumn)
    (min_width min_column_width : ℚ) : ℚ :=
  ((columns.filter (fun c => c.visible)).map
      (effective_width min_column_width)).sum +
    (dummy_container columns min_width min_column_width).getD 0

/-- The filler width as the spec's words describe it (§4.3): effective widths
summed over the **visible** columns only, filler `= max(0, min_table_width −
sum)`, omitted when the sum meets the minimum.  Spec-worded definition used
only to compare against `dummy_container`. -/
def spec_dummy_container (columns : List TblColumn)
    (min_width min_column_width : ℚ) : Option ℚ :=
  let visible_sum := ((columns.filter (fun c => c.visible)).map
    (effective_width min_column_width)).sum
  if visible_sum < min_width then some (min_width - visible_sum) else none

/-! ### Scroll synchronization (src/lib.rs `From<Table>` impl). -/

/-- `iced::widget::scrollable::AbsoluteOffset` with `f32` as `ℚ`. -/
structure AbsoluteOffset where
  x : ℚ
  y : ℚ
  deriving DecidableEq, Repr

/-- The offset carried by the sync message built in the body's `on_scroll`
closure (src/lib.rs lines 301-305):
`scrollable::AbsoluteOffset { y: 0.0, ..offset }`. -/
def synced_offset (offset : AbsoluteOffset) : AbsoluteOffset :=
  { offset with y := 0 }

/-- The messages produced for one scroll event of the body scrollable
(src/lib.rs lines 301-305): exactly one `on_sync` message carrying
`synced_offset` of the body's absolute offset. -/
def body_on_scroll (offset : AbsoluteOffset) : List AbsoluteOffset :=
  [synced_offset offset]

/-- `iced::widget::scrollable::Scrollbar` restricted to the three numeric
fields the table sets. -/
structure Scrollbar where
  width : ℚ
  margin : ℚ
  scroller_width : ℚ
  deriving DecidableEq, Repr

/-- Builder method `Scrollbar::width`. -/
def Scrollbar.withWidth (sb : Scrollbar) (w : ℚ) : Scrollbar :=
  { sb with width := w }

/-- Builder method `Scrollbar::margin`. -/
def Scrollbar.withMargin (sb : Scrollbar) (m : ℚ) : Scrollbar :=
  { sb with margin := m }

/-- Builder method `Scrollbar::scroller_width`. -/
def Scrollbar.withScrollerWidth (sb : Scrollbar) (w : ℚ) : Scrollbar :=
  { sb with scroller_width := w }

/-- The scrollbar configured for the header and footer scrollables in both
directions (src/lib.rs lines 266-275 and 337-346):
`Scrollbar::new().width(0).margin(0).scroller_width(0)`, starting from
whatever defaults `Scrollbar::new()` has. -/
def header_footer_scrollbar (new : Scrollbar) : Scrollbar :=
  ((new.withWidth 0).withMargin 0).withScrollerWidth 0

/-! ### Column identity (src/lib.rs `Column::id` default). -/

/-- The default body of `Column::id` (src/lib.rs lines 85-89):
`format!("column_{}", std::any::type_name::<Self>())`, as a function of the
implementing type's name. -/
def default_column_id (type_name : String) : String :=
  "column_" ++ type_name

/-- What determines a `Column` implementor's `id()`: the concrete type's name
and, when the implementor overrides `id`, the overriding result. -/
structure ColumnIdSource where
  type_name : String
  id_override : Option String
  deriving DecidableEq, Repr

/-- The `id()` a column reports: the override when present, otherwise the
default implementation. -/
def column_id_of (c : ColumnIdSource) : String :=
  c.id_override.getD (default_column_id c.type_name)

/-! ### Whole-table model of context-menu clicks (for the visibility
invariant).  A table is the divider-visible view of the column list:
`(id, title, visible)` per column. -/

/-- Number of visible columns of a table. -/
def countVisible (cols : List ColEntry) : ℕ :=
  (cols.filter (fun e => e.visible)).length

/-- `other_columns` built in `with_divider` (src/lib.rs lines 505-510):
`all_columns.iter().enumerate().filter(|(i, _)| *i != index).map(...)`. -/
def other_columns_of (cols : List ColEntry) (index : ℕ) : List ColEntry :=
  ((cols.enum.filter (fun p => p.1 ≠ index)).map (fun p => p.2))

/-- The `Divider` that `with_divider` (src/lib.rs lines 466-523) constructs
for the column at `index` with data `c`, when the resize callbacks are set
and column visibility is enabled iff `hasCb`. -/
def divider_for (cols : List ColEntry) (index : ℕ) (c : ColEntry)
    (hasCb : Bool) : Divider :=
  { column_id := c.id,
    column_title := c.title,
    other_columns := other_columns_of cols index,
    has_on_column_visibility := hasCb }

/-- The host's handling of `ToggleColumn` (example/src/main.rs lines
141-152, implementing the contract of spec §6): flip the `visible` flag of
the first column whose `id()` matches the carried id
(`self.columns.iter_mut().find(|c| c.id() == column_id)`). -/
def apply_toggle (cols : List ColEntry) (column_id : String) :
    List ColEntry :=
  match cols with
  | [] => []
  | c :: rest =>
      if c.id = column_id then
        { c with visible := !c.visible } :: rest
      else
        c :: apply_toggle rest column_id

/-- One context-menu click: which column's divider shows the menu, the
cursor position, the menu bounds and the overlay's scroll offset. -/
structure Click where
  index : ℕ
  pos : Point
  menu : Rect
  scroll : ℚ
  deriving DecidableEq, Repr

/-- One click processed end to end: the Table Composer only builds dividers
for visible columns (src/lib.rs lines 246-247), the click runs through
`handle_context_menu_click`, and an emitted `ToggleColumn` is applied by the
host.  A click on a missing or hidden column's divider is impossible and
leaves the table unchanged. -/
def step_click (hasCb : Bool) (cols : List ColEntry) (ck : Click) :
    List ColEntry :=
  match cols.get? ck.index with
  | none => cols
  | some c =>
      if c.visible then
        match handle_context_menu_click (divider_for cols ck.index c hasCb)
            ck.pos ck.menu ck.scroll with
        | some id => apply_toggle cols id
        | none => cols
      else
        cols

/-- A whole sequence of context-menu clicks. -/
def run_clicks (hasCb : Bool) (cols : List ColEntry) (cks : List Click) :
    List ColEntry :=
  cks.foldl (step_click hasCb) cols

/-- The legality rule exactly as the claim states it, for an emitted toggle
of the column with id `cid`: the divider's own column may be toggled off
only if at least one other column is visible; an entry for another
currently-visible column only if the total visible count exceeds 1 (toggling
a hidden column on is always legal, hence unconstrained). -/
def legal_toggle (d : Divider) (cid : String) : Prop :=
  (cid = d.column_id ∧ d.other_columns.any (fun e => e.visible) = true) ∨
  (∃ e ∈ d.other_columns, cid = e.id ∧
    (e.visible = true → 1 < count_visible_columns d))

/-! ### The claim's hit-testing formula (spec §4.2), for comparison with
`handle_context_menu_click`. -/

/-- The item-index resolution as the claim words it: subtract the menu's top
padding **and the current scroll offset** from the click's vertical
position, integer-divide by `item_height`; index 0 is the "hide current
column" row and, after accounting for the separator, index `k + 1` is
`other_columns[k]`.  Spec-worded definition used only for comparison. -/
def claim_resolved_target (d : Divider) (cursor_position : Point)
    (menu_bounds : Rect) (scroll_offset : ℚ) : Option String :=
  let idx : ℤ :=
    Int.floor ((cursor_position.y - menu_bounds.y - 8 - scroll_offset) / 30)
  if idx = 0 then
    some d.column_id
  else if 1 ≤ idx then
    (d.other_columns.get? (idx - 1).toNat).map (fun e => e.id)
  else
    none

/-! ### Concrete instances used by counterexamples and witnesses. -/

/-- A divider for column "a" with two visible sibling columns. -/
def divAB : Divider :=
  { column_id := "a", column_title := "A",
    other_columns := [⟨"b", "B", true⟩, ⟨"c", "C", true⟩],
    has_on_column_visibility := true }

/-- A divider with nine other columns, enough to overflow an 400-high
viewport (desired height 356 > 320 = 80% of 400). -/
def divNine : Divider :=
  { column_id := "c0", column_title := "T",
    other_columns :=
      [⟨"x1", "X", true⟩, ⟨"x2", "X", true⟩, ⟨"x3", "X", true⟩,
       ⟨"x4", "X", true⟩, ⟨"x5", "X", true⟩, ⟨"x6", "X", true⟩,
       ⟨"x7", "X", true⟩, ⟨"x8", "X", true⟩, ⟨"x9", "X", true⟩],
    has_on_column_visibility := true }

/-- A divider state whose context menu is open, anchored at (7, 9). -/
def openMenuState : State :=
  { drag_origin := none, is_divider_hovered := false,
    show_context_menu := true, context_menu_position := ⟨7, 9⟩ }

/-- A two-column table, both visible. -/
def tableAB : List ColEntry := [⟨"a", "A", true⟩, ⟨"b", "B", true⟩]

/-! ### Helper lemmas. -/

lemma enumFrom_filter_ne_of_lt {α : Type _} (l : List α) (n k : ℕ)
    (h : k < n) :
    (l.enumFrom n).filter (fun p => p.1 ≠ k) = l.enumFrom n := by
  rw [List.filter_eq_self]
  intro p hp
  have hle := List.le_fst_of_mem_enumFrom hp
  simp only [ne_eq, decide_not, Bool.not_eq_true', decide_eq_false_iff_not]
  omega

lemma enumFrom_filter_ne_map_snd {α : Type _} (l : List α) :
    ∀ (n i : ℕ),
      ((l.enumFrom n).filter (fun p => p.1 ≠ n + i)).map (fun p => p.2) =
        l.eraseIdx i := by
  induction l with
  | nil => intro n i; rfl
  | cons a t ih =>
      intro n i
      cases i with
      | zero =>
          rw [List.enumFrom_cons, List.filter_cons, if_neg (by simp)]
          rw [enumFrom_filter_ne_of_lt t (n + 1) (n + 0) (by omega)]
          exact List.enumFrom_map_snd (n + 1) t
      | succ j =>
          have h2 : n + (j + 1) = (n + 1) + j := by omega
          rw [h2, List.enumFrom_cons, List.filter_cons,
            if_pos (by simp only [decide_eq_true_eq]; omega)]
          rw [List.map_cons, List.eraseIdx_cons_succ]
          exact congrArg (List.cons a) (ih (n + 1) j)

lemma other_columns_of_eq_eraseIdx (cols : List ColEntry) (i : ℕ) :
    other_columns_of cols i = cols.eraseIdx i := by
  have h := enumFrom_filter_ne_map_snd cols 0 i
  simpa [other_columns_of, List.enum] using h

lemma countVisible_eraseIdx (cols : List ColEntry) :
    ∀ (i : ℕ) (c : ColEntry), cols.get? i = some c →
      countVisible cols =
        countVisible (cols.eraseIdx i) + (if c.visible then 1 else 0) := by
  induction cols with
  | nil => intro i c h; cases h
  | cons a t ih =>
      intro i c h
      cases i with
      | zero =>
          have hc : a = c := by simpa using h
          subst hc
          simp only [List.eraseIdx_cons_zero]
          cases hv : a.visible <;>
            simp [countVisible, List.filter_cons, hv]
      | succ j =>
          have h' : t.get? j = some c := by simpa using h
          have hrec := ih j c h'
          simp only [List.eraseIdx_cons_succ]
          cases hv : a.visible <;>
            simp [countVisible, List.filter_cons, hv] at hrec ⊢ <;> omega

lemma one_le_countVisible_of_mem {cols : List ColEntry} {e : ColEntry}
    (he : e ∈ cols) (hv : e.visible = true) : 1 ≤ countVisible cols := by
  have : e ∈ cols.filter (fun x => x.visible) := List.mem_filter.2 ⟨he, hv⟩
  have hne : cols.filter (fun x => x.visible) ≠ [] := by
    intro hnil; rw [hnil] at this; cases this
  have := List.length_pos.2 hne
  simpa [countVisible] using this

lemma apply_toggle_map_id (cols : List ColEntry) (cid : String) :
    (apply_toggle cols cid).map (fun e => e.id) =
      cols.map (fun e => e.id) := by
  induction cols with
  | nil => rfl
  | cons a t ih =>
      by_cases h : a.id = cid <;> simp [apply_toggle, h, ih]

lemma find?_id_of_mem_nodup {cols : List ColEntry} {e : ColEntry}
    (hnd : (cols.map (fun x => x.id)).Nodup) (he : e ∈ cols) :
    cols.find? (fun x => x.id = e.id) = some e := by
  have hs : (cols.find? (fun x => x.id = e.id)).isSome :=
    List.find?_isSome.2 ⟨e, he, by simp⟩
  obtain ⟨x, hx⟩ := Option.isSome_iff_exists.1 hs
  have hxm : x ∈ cols := List.mem_of_find?_eq_some hx
  have hxe : x.id = e.id := by
    have := List.find?_some hx
    simpa using this
  have : x = e := List.inj_on_of_nodup_map hnd hxm he hxe
  rw [hx, this]

lemma apply_toggle_count_visible (cols : List ColEntry) :
    ∀ (c : ColEntry) (cid : String),
      cols.find? (fun x => x.id = cid) = some c → c.visible = true →
      countVisible (apply_toggle cols cid) + 1 = countVisible cols := by
  induction cols with
  | nil => intro c cid h; cases h
  | cons a t ih =>
      intro c cid h hv
      by_cases ha : a.id = cid
      · rw [List.find?_cons_of_pos _ (by simpa using ha)] at h
        cases h
        simp [apply_toggle, ha, countVisible, List.filter_cons, hv]
      · rw [List.find?_cons_of_neg _ (by simpa using ha)] at h
        have := ih c cid h hv
        cases hav : a.visible <;>
          simp [apply_toggle, ha, countVisible, List.filter_cons, hav] at this ⊢ <;>
          omega

lemma apply_toggle_count_hidden (cols : List ColEntry) :
    ∀ (c : ColEntry) (cid : String),
      cols.find? (fun x => x.id = cid) = some c → c.visible = false →
      countVisible (apply_toggle cols cid) = countVisible cols + 1 := by
  induction cols with
  | nil => intro c cid h; cases h
  | cons a t ih =>
      intro c cid h hv
      by_cases ha : a.id = cid
      · rw [List.find?_cons_of_pos _ (by simpa using ha)] at h
        cases h
        simp [apply_toggle, ha, countVisible, List.filter_cons, hv]
      · rw [List.find?_cons_of_neg _ (by simpa using ha)] at h
        have := ih c cid h hv
        cases hav : a.visible <;>
          simp [apply_toggle, ha, countVisible, List.filter_cons, hav] at this ⊢ <;>
          omega

lemma can_hide_column_count {d : Divider} {x : String}
    (h : can_hide_column d x = true) : 2 ≤ count_visible_columns d := by
  by_contra hc
  have : count_visible_columns d ≤ 1 := by omega
  simp [can_hide_column, this] at h

lemma can_hide_column_own {d : Divider}
    (h : can_hide_column d d.column_id = true) :
    d.other_columns.any (fun e => e.visible) = true := by
  by_cases hc : count_visible_columns d ≤ 1
  · simp [can_hide_column, hc] at h
  · simpa [can_hide_column, hc] using h

lemma count_visible_divider (cols : List ColEntry) (i : ℕ) (c : ColEntry)
    (hasCb : Bool) :
    count_visible_columns (divider_for cols i c hasCb) =
      1 + countVisible (cols.eraseIdx i) := by
  simp [count_visible_columns, divider_for, countVisible,
    other_columns_of_eq_eraseIdx]

lemma containsPt_iff (r : Rect) (p : Point) :
    r.containsPt p = true ↔
      ¬(p.x < r.x ∨ p.x ≥ r.x + r.width ∨ p.y < r.y
        ∨ p.y ≥ r.y + r.height) := by
  simp only [Rect.containsPt, Bool.and_eq_true, decide_eq_true_eq, not_or,
    not_lt, not_le, ge_iff_le]
  constructor
  · rintro ⟨⟨⟨h1, h2⟩, h3⟩, h4⟩
    exact ⟨h1, lt_of_not_le (not_le.2 h2), h3, lt_of_not_le (not_le.2 h4)⟩
  · rintro ⟨h1, h2, h3, h4⟩
    exact ⟨⟨⟨h1, h2⟩, h3⟩, h4⟩

lemma emit_target (d : Divider) (p : Point) (b : Rect) (s : ℚ) (cid : String)
    (h : handle_context_menu_click d p b s = some cid) :
    d.has_on_column_visibility = true ∧
    ((cid = d.column_id ∧ can_hide_column d d.column_id = true) ∨
     (∃ e, e ∈ d.other_columns ∧ cid = e.id ∧
       (e.visible = true → can_hide_column d e.id = true))) := by
  by_cases hb : (p.x < b.x ∨ p.x ≥ b.x + b.width ∨ p.y < b.y
      ∨ p.y ≥ b.y + b.height)
  · rw [handle_context_menu_click, if_pos hb] at h
    cases h
  · rw [handle_context_menu_click, if_neg hb] at h
    by_cases hlt : p.y - b.y - 8 + s < 30
    · rw [if_pos hlt] at h
      by_cases hcond :
          (can_hide_column d d.column_id && d.has_on_column_visibility) = true
      · rw [if_pos hcond] at h
        cases h
        have hc := hcond
        simp only [Bool.and_eq_true] at hc
        exact ⟨hc.2, Or.inl ⟨rfl, hc.1⟩⟩
      · rw [if_neg hcond] at h
        cases h
    · rw [if_neg hlt] at h
      by_cases hoc : (d.other_columns.isEmpty = false ∧
          p.y - b.y - 8 + s > 30 + separator_offset d)
      · rw [if_pos hoc] at h
        dsimp only [] at h
        cases hg : d.other_columns.get?
            (Int.floor ((p.y - b.y - 8 + s - 30 - separator_offset d) / 30)).toNat with
        | none => rw [hg] at h; dsimp only [] at h; cases h
        | some e =>
            rw [hg] at h
            dsimp only [] at h
            by_cases hcond :
                ((if e.visible = true then can_hide_column d e.id else true) &&
                  d.has_on_column_visibility) = true
            · rw [if_pos hcond] at h
              cases h
              have hc := hcond
              simp only [Bool.and_eq_true] at hc
              refine ⟨hc.2, Or.inr ⟨e, List.get?_mem hg, rfl, fun hv => ?_⟩⟩
              simpa [hv] using hc.1
            · rw [if_neg hcond] at h
              cases h
      · rw [if_neg hoc] at h
        cases h

lemma step_click_countVisible (hasCb : Bool) (cols : List ColEntry)
    (ck : Click) (hnd : (cols.map (fun e => e.id)).Nodup)
    (h1 : 1 ≤ countVisible cols) :
    1 ≤ countVisible (step_click hasCb cols ck) := by
  unfold step_click
  cases hget : cols.get? ck.index with
  | none => exact h1
  | some c =>
      dsimp only []
      by_cases hv : c.visible = true
      · rw [if_pos hv]
        cases hemit : handle_context_menu_click
            (divider_for cols ck.index c hasCb) ck.pos ck.menu ck.scroll with
        | none => exact h1
        | some cid =>
            dsimp only []
            obtain ⟨_, hcases⟩ := emit_target _ _ _ _ _ hemit
            have hsplit := countVisible_eraseIdx cols ck.index c hget
            rw [hv, if_pos rfl] at hsplit
            rcases hcases with ⟨hcid, hch⟩ | ⟨e, he, hcid, himp⟩
            · have hcid' : cid = c.id := hcid
              have hany := can_hide_column_own hch
              simp only [divider_for] at hany
              obtain ⟨e, he, hev⟩ := List.any_eq_true.1 hany
              have he' : e ∈ cols.eraseIdx ck.index := by
                simpa [other_columns_of_eq_eraseIdx] using he
              have h2 : 1 ≤ countVisible (cols.eraseIdx ck.index) :=
                one_le_countVisible_of_mem he' (by simpa using hev)
              have hfind : cols.find? (fun x => x.id = c.id) = some c :=
                find?_id_of_mem_nodup hnd (List.get?_mem hget)
              have hcount :=
                apply_toggle_count_visible cols c c.id hfind hv
              subst hcid'
              omega
            · have he' : e ∈ cols.eraseIdx ck.index := by
                simpa [divider_for, other_columns_of_eq_eraseIdx] using he
              have hem : e ∈ cols :=
                (List.eraseIdx_sublist cols ck.index).subset he'
              have hfind : cols.find? (fun x => x.id = e.id) = some e :=
                find?_id_of_mem_nodup hnd hem
              by_cases hev : e.visible = true
              · have h2 := can_hide_column_count (himp hev)
                rw [count_visible_divider] at h2
                have hcount :=
                  apply_toggle_count_visible cols e e.id hfind hev
                subst hcid
                omega
              · have hevf : e.visible = false := by
                  simpa using hev
                have hcount :=
                  apply_toggle_count_hidden cols e e.id hfind hevf
                subst hcid
                omega
      · rw [if_neg hv]
        exact h1

lemma step_click_nodup (hasCb : Bool) (cols : List ColEntry) (ck : Click)
    (hnd : (cols.map (fun e => e.id)).Nodup) :
    ((step_click hasCb cols ck).map (fun e => e.id)).Nodup := by
  unfold step_click
  cases hget : cols.get? ck.index with
  | none => exact hnd
  | some c =>
      dsimp only []
      by_cases hv : c.visible = true
      · rw [if_pos hv]
        cases hemit : handle_context_menu_click
            (divider_for cols ck.index c hasCb) ck.pos ck.menu ck.scroll with
        | none => exact hnd
        | some cid => rw [apply_toggle_map_id]; exact hnd
      · rw [if_neg hv]
        exact hnd

lemma run_clicks_inv (hasCb : Bool) (cks : List Click) :
    ∀ cols : List ColEntry, (cols.map (fun e => e.id)).Nodup →
      1 ≤ countVisible cols →
      1 ≤ countVisible (run_clicks hasCb cols cks) ∧
        ((run_clicks hasCb cols cks).map (fun e => e.id)).Nodup := by
  induction cks with
  | nil => intro cols hnd h1; exact ⟨h1, hnd⟩
  | cons ck t ih =>
      intro cols hnd h1
      have hstep1 := step_click_countVisible hasCb cols ck hnd h1
      have hstep2 := step_click_nodup hasCb cols ck hnd
      have := ih (step_click hasCb cols ck) hstep2 hstep1
      simpa [run_clicks, List.foldl_cons] using this

/-! ### The claims. -/

/-- C1: a context-menu click publishes a visibility toggle only if the
legality rule holds — the divider's own column only if at least one other
column is visible, another currently-visible column only if the total
visible count exceeds 1, a hidden column always — and over every sequence of
context-menu clicks on a table with distinct column ids and at least one
visible column, clicks that emit nothing change nothing, so the number of
visible columns never reaches zero. -/
theorem c1_toggle_legality_and_invariant
    (hasCb : Bool) (cols : List ColEntry) (clicks : List Click)
    (d : Divider) (p : Point) (b : Rect) (s : ℚ) (cid : String)
    (hnd : (cols.map (fun e => e.id)).Nodup)
    (h1 : 1 ≤ countVisible cols)
    (hemit : handle_context_menu_click d p b s = some cid) :
    legal_toggle d cid ∧
      1 ≤ countVisible (run_clicks hasCb cols clicks) := by
  constructor
  · obtain ⟨_, hcases⟩ := emit_target d p b s cid hemit
    rcases hcases with ⟨hcid, hch⟩ | ⟨e, he, hcid, himp⟩
    · exact Or.inl ⟨hcid, can_hide_column_own hch⟩
    · refine Or.inr ⟨e, he, hcid, fun hv => ?_⟩
      have h2 := can_hide_column_count (himp hv)
      omega
  · exact (run_clicks_inv hasCb clicks cols hnd h1).1

/-- Witness for C1 at a concrete table and click: the divider of column "a"
with visible siblings "b" and "c", clicked on its "Hide A" row. -/
theorem c1_witness :
    legal_toggle divAB "a" ∧
      1 ≤ countVisible (run_clicks true tableAB
        [⟨0, ⟨10, 10⟩, ⟨0, 0, 200, 100⟩, 0⟩]) :=
  c1_toggle_legality_and_invariant true tableAB
    [⟨0, ⟨10, 10⟩, ⟨0, 0, 200, 100⟩, 0⟩]
    divAB ⟨10, 10⟩ ⟨0, 0, 200, 100⟩ 0 "a"
    (by decide)
    (by decide)
    (by norm_num [handle_context_menu_click, can_hide_column,
        count_visible_columns, divAB])

/-- C4 counterexample: the wheel handler clamps the scroll offset only at 0,
not at `desired_height − actual_height`.  For the nine-column menu in a
400-high viewport, scrolling is enabled, `desired − actual = 356 − 320 =
36`, yet a single 10-line upward wheel event from offset 0 produces offset
300, outside `[0, 36]`. -/
theorem c4_counterexample :
    menu_needs_scroll divNine 400 = true ∧
      (overlay_update divNine (context_menu_bounds divNine ⟨0, 0⟩ 400).1
          true 0 (context_menu_bounds divNine ⟨0, 0⟩ 400).2
          (some ⟨5, 5⟩) (.wheelLines (-10))).scroll_offset = 300 ∧
      menu_desired_height divNine - menu_actual_height divNine 400 = 36 ∧
      ¬((300 : ℚ) ≤ 36) := by
  refine ⟨?_, ?_, ?_, by norm_num⟩
  · norm_num [menu_needs_scroll, menu_desired_height, menu_content_height,
      menu_item_count, menu_max_height, divNine]
  · norm_num [overlay_update, context_menu_bounds, menu_needs_scroll,
      menu_desired_height, menu_content_height, menu_item_count,
      menu_max_height, menu_actual_height, menu_content_width,
      Rect.containsPt, divNine, show "T".length = 1 from rfl,
      show "X".length = 1 from rfl]
  · norm_num [menu_desired_height, menu_content_height, menu_item_count,
      menu_actual_height, menu_max_height, divNine]

/-- C4 (amended): a wheel event over the menu is acted on only when
scrolling was enabled at layout time; a line delta `y` sets the offset to
`max(0, offset − y·30)` (line deltas scaled by the 30-pixel item height) and
a pixel delta to `max(0, offset − y)`.  The result is clamped below at 0 but
is not clamped above, so it can exceed `desired_height − actual_height`;
when scrolling is disabled the event changes nothing and is not captured. -/
theorem c4_wheel_scroll_amended (d : Divider) (b : Rect) (menuOpen : Bool)
    (scroll y : ℚ) (p : Point) (ns0 : Bool)
    (hover : b.containsPt p = true) (hns0 : ns0 = false) :
    overlay_update d b menuOpen scroll true (some p) (.wheelLines y) =
      ⟨menuOpen, max (scroll - y * 30) 0, [], true⟩ ∧
      overlay_update d b menuOpen scroll true (some p) (.wheelPixels y) =
        ⟨menuOpen, max (scroll - y) 0, [], true⟩ ∧
      (0 : ℚ) ≤ max (scroll - y * 30) 0 ∧
      (0 : ℚ) ≤ max (scroll - y) 0 ∧
      overlay_update d b menuOpen scroll ns0 (some p) (.wheelLines y) =
        ⟨menuOpen, scroll, [], false⟩ := by
  subst hns0
  refine ⟨?_, ?_, le_max_right _ _, le_max_right _ _, ?_⟩ <;>
    simp [overlay_update, hover]

/-- Witness for C4 (amended): the nine-column menu, wheeled by one line. -/
theorem c4_witness :
    overlay_update divNine ⟨0, 0, 220, 320⟩ true 0 true (some ⟨5, 5⟩)
        (.wheelLines (-1)) =
      ⟨true, max (0 - (-1) * 30) 0, [], true⟩ ∧
      overlay_update divNine ⟨0, 0, 220, 320⟩ true 0 true (some ⟨5, 5⟩)
          (.wheelPixels (-1)) =
        ⟨true, max (0 - (-1)) 0, [], true⟩ ∧
      (0 : ℚ) ≤ max (0 - (-1) * 30) 0 ∧
      (0 : ℚ) ≤ max (0 - (-1)) 0 ∧
      overlay_update divNine ⟨0, 0, 220, 320⟩ true 0 false (some ⟨5, 5⟩)
          (.wheelLines (-1)) =
        ⟨true, 0, [], false⟩ :=
  c4_wheel_scroll_amended divNine ⟨0, 0, 220, 320⟩ true 0 (-1) ⟨5, 5⟩ false
    (by norm_num [Rect.containsPt]) rfl

/-- C5 counterexample: the hit-test ADDS the scroll offset to the click's
vertical position instead of subtracting it.  With scroll offset 30, a click
38 below the menu top makes the code resolve the first *other* column "b"
(`relative_y = 38 − 8 + 30 = 60`), while the claim's formula
`(38 − 8 − 30) / 30 = 0` resolves index 0, the "hide current column" entry
"a"; the emitted message carries "b", not "a". -/
theorem c5_counterexample :
    handle_context_menu_click divAB ⟨10, 38⟩ ⟨0, 0, 200, 300⟩ 30
        = some "b" ∧
      claim_resolved_target divAB ⟨10, 38⟩ ⟨0, 0, 200, 300⟩ 30
        = some "a" ∧
      ("b" : String) ≠ "a" := by
  refine ⟨?_, ?_, by decide⟩
  · norm_num [handle_context_menu_click, can_hide_column,
      count_visible_columns, separator_offset, divAB]
  · norm_num [claim_resolved_target, divAB]

/-- C5 (amended): for a click inside the menu the targeted item is found
from `relative_y = click.y − menu.y − 8 + scroll_offset` — top padding
subtracted, scroll offset **added**.  A click `p0` with `relative_y < 30`
resolves to the "hide current column" entry; a click `p1` whose `relative_y`
exceeds the item height plus the separator offset (other columns present)
resolves `other_columns` at index `⌊(relative_y − 30 − separator) / 30⌋` in
iteration order; in both cases the emitted toggle carries the resolved
column's id. -/
theorem c5_hit_test_amended (d : Divider) (b : Rect) (s : ℚ)
    (p0 p1 : Point) (e : ColEntry)
    (hcb : d.has_on_column_visibility = true)
    (hin0 : b.containsPt p0 = true)
    (h30 : click_relative_y p0 b s < 30)
    (hin1 : b.containsPt p1 = true)
    (hoc : d.other_columns.isEmpty = false)
    (hgt : click_relative_y p1 b s > 30 + separator_offset d)
    (hg : d.other_columns.get?
        (Int.floor ((click_relative_y p1 b s - 30 - separator_offset d) / 30)).toNat
      = some e) :
    (click_relative_y p0 b s = p0.y - b.y - 8 + s) ∧
      handle_context_menu_click d p0 b s =
        (if can_hide_column d d.column_id then some d.column_id
         else none) ∧
      handle_context_menu_click d p1 b s =
        (if (if e.visible then can_hide_column d e.id else true) then
          some e.id
         else none) := by
  have hnb0 := (containsPt_iff b p0).1 hin0
  have hnb1 := (containsPt_iff b p1).1 hin1
  have hry0 : click_relative_y p0 b s = p0.y - b.y - 8 + s := rfl
  have hry1 : click_relative_y p1 b s = p1.y - b.y - 8 + s := rfl
  rw [hry0] at h30
  rw [hry1] at hgt hg
  refine ⟨rfl, ?_, ?_⟩
  · rw [handle_context_menu_click, if_neg hnb0]
    dsimp only []
    rw [if_pos h30, hcb, Bool.and_true]
  · have hsep : (0 : ℚ) ≤ separator_offset d := by
      unfold separator_offset
      split_ifs <;> norm_num
    have h30' : ¬(p1.y - b.y - 8 + s < 30) := by
      intro hc
      linarith
    rw [handle_context_menu_click, if_neg hnb1]
    dsimp only []
    rw [if_neg h30', if_pos ⟨hoc, hgt⟩]
    rw [hg]
    dsimp only []
    rw [hcb, Bool.and_true]

/-- Witness for C5 (amended) at scroll offset 30: the click at y = 5
(relative_y = 27) resolves the "hide current column" entry of "a", and the
counterexample's click at y = 38 (relative_y = 60) resolves the visible
other column "b". -/
theorem c5_witness :
    (click_relative_y ⟨10, 5⟩ ⟨0, 0, 200, 300⟩ 30 =
        (5 : ℚ) - 0 - 8 + 30) ∧
      handle_context_menu_click divAB ⟨10, 5⟩ ⟨0, 0, 200, 300⟩ 30 =
        (if can_hide_column divAB divAB.column_id then
          some divAB.column_id
         else none) ∧
      handle_context_menu_click divAB ⟨10, 38⟩ ⟨0, 0, 200, 300⟩ 30 =
        (if (if (⟨"b", "B", true⟩ : ColEntry).visible then
              can_hide_column divAB (⟨"b", "B", true⟩ : ColEntry).id
            else true) then
          some (⟨"b", "B", true⟩ : ColEntry).id
         else none) :=
  c5_hit_test_amended divAB ⟨0, 0, 200, 300⟩ 30 ⟨10, 5⟩ ⟨10, 38⟩
    ⟨"b", "B", true⟩
    rfl
    (by norm_num [Rect.containsPt])
    (by norm_num [click_relative_y])
    (by norm_num [Rect.containsPt])
    rfl
    (by norm_num [click_relative_y, separator_offset, divAB])
    (by norm_num [click_relative_y, separator_offset, divAB])

/-- C6 counterexample: `State` (src/divider.rs lines 12-18) holds no menu
scroll offset; `Divider::overlay` rebuilds the context-menu overlay with
`scroll_offset: 0.0` on every widget-tree rebuild.  A menu whose overlay had
been scrolled to offset 60 is rebuilt with offset 0 — the scroll position is
reset, not retained. -/
theorem c6_counterexample :
    (divider_overlay openMenuState ⟨0, 0⟩).map (fun o => o.scroll_offset)
        = some 0 ∧
      ¬((divider_overlay openMenuState ⟨0, 0⟩).map (fun o => o.scroll_offset)
        = some 60) := by
  constructor
  · norm_num [divider_overlay, openMenuState]
  · norm_num [divider_overlay, openMenuState]

/-- C6 (amended): the per-column `State` slot carries `drag_origin`, the
hover flag, the menu-open flag and the menu anchor across rebuilds, and the
rebuilt overlay takes its position from the persisted anchor — but the menu
scroll offset is not part of `State`: every rebuild constructs the overlay
with `scroll_offset = 0` and `needs_scroll = false`, so an open menu's
scroll position is reset, not retained, across re-renders. -/
theorem c6_overlay_amended (st : State) (tr : Point)
    (h : st.show_context_menu = true) :
    divider_overlay st tr =
      some { position := ⟨st.context_menu_position.x + tr.x,
                          st.context_menu_position.y + tr.y⟩,
             scroll_offset := 0, needs_scroll := false } := by
  simp [divider_overlay, h]

/-- Witness for C6 (amended): the open-menu state, translated by (1, 2). -/
theorem c6_witness :
    divider_overlay openMenuState ⟨1, 2⟩ =
      some { position := ⟨openMenuState.context_menu_position.x + 1,
                          openMenuState.context_menu_position.y + 2⟩,
             scroll_offset := 0, needs_scroll := false } :=
  c6_overlay_amended openMenuState ⟨1, 2⟩ rfl

/-- C2: while a drag on column `index` with committed width `old_width` is
active, every pointer-move event publishes exactly one resize-in-progress
message whose delta is `max(min_column_width, old_width + raw) − old_width`
for `raw = pointer.x − drag_origin.x`, so the effective width
`old_width + delta` never drops below `min_column_width`. -/
theorem c2_resize_delta_clamped
    (old_width min_column_width : ℚ) (index : ℕ) (origin position : Point)
    (drag_origin cursor : Option Point)
    (h1 : drag_origin = some origin) (h2 : cursor = some position) :
    divider_move_messages old_width min_column_width index drag_origin cursor
        = [(index,
            max min_column_width (old_width + (position.x - origin.x))
              - old_width)] ∧
      min_column_width ≤ old_width +
        (max min_column_width (old_width + (position.x - origin.x))
          - old_width) := by
  subst h1 h2
  constructor
  · simp [divider_move_messages, with_divider_on_drag, divider_drag_offset,
      max_comm]
  · have h := le_max_left min_column_width (old_width + (position.x - origin.x))
    linarith

/-- Witness for C2: dragging from x = 200 to x = 150 on a column of width
100 with minimum width 20 publishes delta −50 and the effective width stays
at 50 ≥ 20. -/
theorem c2_witness :
    divider_move_messages 100 20 0 (some ⟨200, 0⟩) (some ⟨150, 0⟩)
        = [(0, max 20 (100 + ((150 : ℚ) - 200)) - 100)] ∧
      (20 : ℚ) ≤ 100 + (max 20 (100 + ((150 : ℚ) - 200)) - 100) :=
  c2_resize_delta_clamped 100 20 0 ⟨200, 0⟩ ⟨150, 0⟩ _ _ rfl rfl

/-- C3 counterexample: `dummy_container` sums effective widths over **all**
columns, not the visible ones.  With a visible column of width 50 and a
hidden column of width 100, min table width 120 and min column width 4, the
code omits the filler (all-column sum 150 ≥ 120) while the claim's
visible-only formula demands a filler of width 70; the composed row is then
50 wide, below the minimum. -/
theorem c3_counterexample :
    dummy_container [⟨"a", "A", 50, none, true⟩, ⟨"b", "B", 100, none, false⟩]
        120 4 = none ∧
      spec_dummy_container
        [⟨"a", "A", 50, none, true⟩, ⟨"b", "B", 100, none, false⟩]
        120 4 = some 70 ∧
      composed_row_width
        [⟨"a", "A", 50, none, true⟩, ⟨"b", "B", 100, none, false⟩]
        120 4 < 120 := by
  refine ⟨?_, ?_, ?_⟩
  · norm_num [dummy_container, dummy_total_width, effective_width]
  · norm_num [spec_dummy_container, effective_width]
  · norm_num [composed_row_width, dummy_container, dummy_total_width,
      effective_width]

/-- C3 (amended): for **every** column slice, hidden columns included, the
filler width is `max(0, min_width − S)` where `S` sums the effective widths
of **all** columns of the slice; the filler is omitted exactly when `S`
meets the minimum; `S` plus the filler always reaches `min_width`; and when
every column of the slice is visible the composed row's total width is at
least `min_width`. -/
theorem c3_filler_amended (columns : List TblColumn)
    (min_width min_column_width : ℚ) :
    (dummy_container columns min_width min_column_width = none ↔
        min_width ≤ dummy_total_width columns min_column_width) ∧
      (dummy_container columns min_width min_column_width).getD 0 =
        max 0 (min_width - dummy_total_width columns min_column_width) ∧
      min_width ≤ dummy_total_width columns min_column_width +
        (dummy_container columns min_width min_column_width).getD 0 ∧
      ((∀ c ∈ columns, c.visible = true) →
        min_width ≤ composed_row_width columns min_width min_column_width) := by
  refine ⟨?_, ?_, ?_, ?_⟩
  · unfold dummy_container
    dsimp only []
    split_ifs with h
    · constructor
      · intro hx; exact absurd hx (by simp)
      · intro hx; exact absurd hx (by linarith)
    · constructor
      · intro _; linarith
      · intro _; rfl
  · unfold dummy_container
    dsimp only []
    split_ifs with h
    · simp only [Option.getD_some]
      exact (max_eq_right (by linarith)).symm
    · simp only [Option.getD_none]
      exact (max_eq_left (by linarith)).symm
  · unfold dummy_container
    dsimp only []
    split_ifs with h
    · simp only [Option.getD_some]; linarith
    · simp only [Option.getD_none]; linarith
  · intro hall
    have hfil : columns.filter (fun c => c.visible) = columns :=
      List.filter_eq_self.2 hall
    unfold composed_row_width dummy_container
    dsimp only []
    rw [hfil]
    unfold dummy_total_width
    split_ifs with h
    · simp only [Option.getD_some]; linarith
    · simp only [Option.getD_none]
      unfold dummy_total_width at h
      linarith

/-- Witness for C3 (amended) at a slice containing a hidden column: the
general filler characterization holds there, and the composed-row bound is
conditional on all columns being visible. -/
theorem c3_witness :
    (dummy_container [⟨"a", "A", 50, none, true⟩, ⟨"b", "B", 100, none, false⟩]
          120 4 = none ↔
        (120 : ℚ) ≤ dummy_total_width
          [⟨"a", "A", 50, none, true⟩, ⟨"b", "B", 100, none, false⟩] 4) ∧
      (dummy_container [⟨"a", "A", 50, none, true⟩, ⟨"b", "B", 100, none, false⟩]
          120 4).getD 0 =
        max 0 (120 - dummy_total_width
          [⟨"a", "A", 50, none, true⟩, ⟨"b", "B", 100, none, false⟩] 4) ∧
      (120 : ℚ) ≤ dummy_total_width
          [⟨"a", "A", 50, none, true⟩, ⟨"b", "B", 100, none, false⟩] 4 +
        (dummy_container [⟨"a", "A", 50, none, true⟩, ⟨"b", "B", 100, none, false⟩]
          120 4).getD 0 ∧
      ((∀ c ∈ [(⟨"a", "A", 50, none, true⟩ : TblColumn),
          ⟨"b", "B", 100, none, false⟩], c.visible = true) →
        (120 : ℚ) ≤ composed_row_width
          [⟨"a", "A", 50, none, true⟩, ⟨"b", "B", 100, none, false⟩] 120 4) :=
  c3_filler_amended
    [⟨"a", "A", 50, none, true⟩, ⟨"b", "B", 100, none, false⟩] 120 4

/-- C7: every scroll event of the body scrollable produces exactly one sync
message whose offset keeps the body's `x` and forces the vertical component
to 0; the header and footer scrollables are configured (in both directions)
with scrollbar width, margin and scroller width all zero, so they expose no
visible scrollbar. -/
theorem c7_scroll_sync (offset : AbsoluteOffset) (initial : Scrollbar) :
    body_on_scroll offset = [{ x := offset.x, y := 0 }] ∧
      (body_on_scroll offset).length = 1 ∧
      (header_footer_scrollbar initial).width = 0 ∧
      (header_footer_scrollbar initial).margin = 0 ∧
      (header_footer_scrollbar initial).scroller_width = 0 := by
  exact ⟨rfl, rfl, rfl, rfl, rfl⟩

/-- C8: context-menu geometry.  With `N` other columns:
`desired_height = (1 + (1 if N > 0 else 0) + N)·30 + (6 if N > 0 else 0) +
2·10`; the menu rectangle's height is `min(desired, 0.8·V)`; scrolling is
enabled iff `desired` exceeds that height; and the menu width is
`max(180, widest title estimate) + 2·10`, plus a 20-wide scrollbar gutter
exactly when scrolling is enabled. -/
theorem c8_menu_geometry (d : Divider) (position : Point) (V : ℚ) :
    menu_desired_height d =
        ((1 + (if 0 < d.other_columns.length then 1 else 0) +
            d.other_columns.length : ℕ) : ℚ) * 30 +
          (if 0 < d.other_columns.length then (6 : ℚ) else 0) + 2 * 10 ∧
      (context_menu_bounds d position V).1.height =
        min (menu_desired_height d) ((4 / 5) * V) ∧
      ((context_menu_bounds d position V).2 = true ↔
        menu_desired_height d > (context_menu_bounds d position V).1.height) ∧
      (context_menu_bounds d position V).1.width =
        max 180 (max ((d.column_title.length : ℚ) * 8)
            ((d.other_columns.map (fun e => (e.title.length : ℚ) * 8)).foldl
              max 0)) + 2 * 10 +
          (if (context_menu_bounds d position V).2 = true then (20 : ℚ)
           else 0) := by
  refine ⟨?_, ?_, ?_, ?_⟩
  · cases hoc : d.other_columns with
    | nil =>
        simp [menu_desired_height, menu_content_height, menu_item_count, hoc]
        norm_num
    | cons a t =>
        simp [menu_desired_height, menu_content_height, menu_item_count, hoc]
        ring
  · simp [context_menu_bounds, menu_actual_height, menu_max_height,
      mul_comm]
  · simp only [context_menu_bounds, menu_needs_scroll,
      menu_actual_height, menu_max_height, decide_eq_true_eq, gt_iff_lt,
      lt_min_iff, min_lt_iff, lt_irrefl, false_or, or_false]
  · simp only [context_menu_bounds, menu_content_width]
    rw [max_comm _ (180 : ℚ)]
    ring_nf

/-- C9: with the context menu open, a left-click outside the menu closes it
and publishes nothing; a right-click (wherever the cursor is) closes it and
publishes nothing; a left-click inside on an entry the handler accepts
publishes exactly that toggle and closes the menu; and a left-click inside
that the handler rejects publishes nothing and leaves the menu open.  All
these pointer events are captured. -/
theorem c9_overlay_close_rules (d : Divider) (b : Rect) (s : ℚ) (ns : Bool)
    (cur : Option Point) (pOut pIn pNop : Point) (cid : String)
    (hOut : b.containsPt pOut = false)
    (hIn : b.containsPt pIn = true)
    (hEmit : handle_context_menu_click d pIn b s = some cid)
    (hNopIn : b.containsPt pNop = true)
    (hNop : handle_context_menu_click d pNop b s = none) :
    overlay_update d b true s ns (some pOut) .leftPressed =
        ⟨false, s, [], true⟩ ∧
      overlay_update d b true s ns cur .rightPressed = ⟨false, s, [], true⟩ ∧
      overlay_update d b true s ns (some pIn) .leftPressed =
        ⟨false, s, [cid], true⟩ ∧
      overlay_update d b true s ns (some pNop) .leftPressed =
        ⟨true, s, [], true⟩ := by
  refine ⟨?_, rfl, ?_, ?_⟩
  · simp [overlay_update, hOut]
  · simp [overlay_update, hIn, hEmit]
  · simp [overlay_update, hNopIn, hNop]

/-- Witness for C9: the "a"-divider's menu of width 200 and height 300 at
the origin; outside click at (300, 50); inside click at (10, 10) emitting
"Hide A"; inside click at (10, 40), which lands on the separator's dead zone
and is rejected. -/
theorem c9_witness :
    overlay_update divAB ⟨0, 0, 200, 300⟩ true 0 false (some ⟨300, 50⟩)
        .leftPressed = ⟨false, 0, [], true⟩ ∧
      overlay_update divAB ⟨0, 0, 200, 300⟩ true 0 false none .rightPressed =
        ⟨false, 0, [], true⟩ ∧
      overlay_update divAB ⟨0, 0, 200, 300⟩ true 0 false (some ⟨10, 10⟩)
        .leftPressed = ⟨false, 0, ["a"], true⟩ ∧
      overlay_update divAB ⟨0, 0, 200, 300⟩ true 0 false (some ⟨10, 40⟩)
        .leftPressed = ⟨true, 0, [], true⟩ :=
  c9_overlay_close_rules divAB ⟨0, 0, 200, 300⟩ 0 false none
    ⟨300, 50⟩ ⟨10, 10⟩ ⟨10, 40⟩ "a"
    (by norm_num [Rect.containsPt])
    (by norm_num [Rect.containsPt])
    (by norm_num [handle_context_menu_click, can_hide_column,
      count_visible_columns, divAB])
    (by norm_num [Rect.containsPt])
    (by norm_num [handle_context_menu_click, separator_offset, divAB])

/-- C10: a `Column` implementor that does not override `id()` reports
`"column_" ++ type name`; two columns of the same concrete type therefore
report identical ids, the `ToggleColumn` messages built from them are
indistinguishable, and the host's id-keyed toggle cannot tell the two
columns apart — applying the message produced for the second column flips
the first. -/
theorem c10_default_id_collision (left right : ColumnIdSource)
    (t1 t2 : String) (v1 v2 : Bool)
    (h1 : left.id_override = none) (h2 : right.id_override = none)
    (ht : left.type_name = right.type_name) :
    column_id_of left = "column_" ++ left.type_name ∧
      column_id_of left = column_id_of right ∧
      ColumnVisibilityMessage.ToggleColumn (column_id_of left) =
        ColumnVisibilityMessage.ToggleColumn (column_id_of right) ∧
      apply_toggle [⟨column_id_of left, t1, v1⟩, ⟨column_id_of right, t2, v2⟩]
          (column_id_of right) =
        [⟨column_id_of left, t1, !v1⟩, ⟨column_id_of right, t2, v2⟩] := by
  have hid : column_id_of left = column_id_of right := by
    simp [column_id_of, h1, h2, default_column_id, ht]
  refine ⟨by simp [column_id_of, h1, default_column_id], hid, by rw [hid],
    ?_⟩
  simp [apply_toggle, hid]

/-- Witness for C10: two columns of concrete type "app::IndexColumn", both
using the default id. -/
theorem c10_witness :
    column_id_of ⟨"app::IndexColumn", none⟩ = "column_" ++ "app::IndexColumn" ∧
      column_id_of ⟨"app::IndexColumn", none⟩ =
        column_id_of ⟨"app::IndexColumn", none⟩ ∧
      ColumnVisibilityMessage.ToggleColumn
          (column_id_of ⟨"app::IndexColumn", none⟩) =
        ColumnVisibilityMessage.ToggleColumn
          (column_id_of ⟨"app::IndexColumn", none⟩) ∧
      apply_toggle
          [⟨column_id_of ⟨"app::IndexColumn", none⟩, "Index", true⟩,
           ⟨column_id_of ⟨"app::IndexColumn", none⟩, "Index2", true⟩]
          (column_id_of ⟨"app::IndexColumn", none⟩) =
        [⟨column_id_of ⟨"app::IndexColumn", none⟩, "Index", !true⟩,
         ⟨column_id_of ⟨"app::IndexColumn", none⟩, "Index2", true⟩] :=
  c10_default_id_collision ⟨"app::IndexColumn", none⟩ ⟨"app::IndexColumn", none⟩
    "Index" "Index2" true true rfl rfl rfl

end IcedTable
